import Mathlib

/-!
Shallow embedding of the hid-rmi driver (src/hid-rmi.c): the RMI4
register read protocol with retry and timeout, the F11 touch and F30
button attention decoders, PDT scanning, raw report dispatch, and the
page-select operation.  Bytes are modelled as Nat, buffers as List Nat,
the asynchronous transport as explicit event lists, and fallible
operations return explicit result values.
-/

namespace HidRmi

/-- Report identifiers, from the defines at the top of hid-rmi.c. -/
def RMI_MOUSE_REPORT_ID : Nat := 0x01

def RMI_WRITE_REPORT_ID : Nat := 0x09

def RMI_READ_ADDR_REPORT_ID : Nat := 0x0a

def RMI_READ_DATA_REPORT_ID : Nat := 0x0b

def RMI_ATTN_REPORT_ID : Nat := 0x0c

def RMI_SET_RMI_MODE_REPORT_ID : Nat := 0x0f

def RMI_MODE_ATTN_REPORTS : Nat := 1

/-!
## Register read protocol (rmi_read_block)

One asynchronous delivery event is either a read-data response chunk
(readReport bytes: count at index 1, payload from index 2 on) or a
timeout of wait_event_timeout, modelled as none.
-/

/-- One read-data response chunk: read_input_count is readReport[1],
payload holds the bytes starting at readReport[2]. -/
structure Chunk where
  count : Nat
  payload : List Nat
  deriving Repr, DecidableEq

/-- Outcome of the inner accumulation loop of rmi_read_block for one
attempt: done when bytes_read reached len (ret stays nonnegative),
timedOut when a wait timed out (ret = -EAGAIN), starved when the
event list of the model is exhausted. -/
inductive AttemptOut where
  | done (buf : List Nat) (rest : List (Option Chunk))
  | timedOut (buf : List Nat) (rest : List (Option Chunk))
  | starved (buf : List Nat)
  deriving Repr, DecidableEq

/-- The inner while loop of rmi_read_block: while bytes_read < len,
wait for a delivery; a timeout ends the attempt with -EAGAIN; a chunk
contributes min(read_input_count, bytes_needed) payload bytes copied at
offset bytes_read, and bytes_read advances by read_input_count. -/
def readLoop (len : Nat) : Nat → List Nat → List (Option Chunk) → AttemptOut
  | bytesRead, acc, [] =>
      if bytesRead < len then .starved acc else .done acc []
  | bytesRead, acc, e :: rest =>
      if bytesRead < len then
        match e with
        | none => .timedOut acc rest
        | some c =>
            readLoop len (bytesRead + c.count)
              (acc ++ c.payload.take (min c.count (len - bytesRead))) rest
      else .done acc (e :: rest)

/-- Final outcome of rmi_read_block: ok with the filled buffer,
eagain after exhausting the retry budget on timeouts, starved when the
event list of the model ran out. -/
inductive BlockRes where
  | ok (buf : List Nat)
  | eagain
  | starved
  deriving Repr, DecidableEq

/-- Result of rmi_read_block together with the number of read-request
output reports written and the delivery events left unconsumed. -/
structure BlockOut where
  res : BlockRes
  writes : Nat
  rest : List (Option Chunk)
  deriving Repr, DecidableEq

/-- The retry for loop of rmi_read_block: up to the given number of
attempts, each attempt sends one read-request report and runs the
accumulation loop; a timeout moves on to the next attempt, and after
the last attempt the operation fails with -EAGAIN. -/
def readAttempts (len : Nat) : Nat → List (Option Chunk) → Nat → BlockOut
  | 0, events, w => ⟨.eagain, w, events⟩
  | retries + 1, events, w =>
      match readLoop len 0 [] events with
      | .done buf rest => ⟨.ok buf, w + 1, rest⟩
      | .timedOut _ rest => readAttempts len retries rest (w + 1)
      | .starved _ => ⟨.starved, w + 1, []⟩

/-- rmi_read_block for a given requested length, run against a list of
delivery events (the for loop starts with retries = 5). -/
def rmi_read_block (len : Nat) (events : List (Option Chunk)) : BlockOut :=
  readAttempts len 5 events 0

/-!
## F11 touch decoding (rmi_f11_process_touch)
-/

/-- The values rmi_f11_process_touch feeds to input_event for a live
finger: position, orientation, pressure and widths.  The y field is an
Int because the C code computes max_y - y in int arithmetic. -/
structure TouchPoint where
  x : Nat
  y : Int
  wide : Bool
  z : Nat
  major : Nat
  minor : Nat
  deriving Repr, DecidableEq

/-- rmi_f11_process_touch: none when the 2-bit finger state is not 1,
otherwise the decoded point from the 5 bytes of touch_data, exactly as
the C expressions compute it (note the masks 0x07 on touch_data[2] and
touch_data[3], and the y inversion against max_y). -/
def rmi_f11_process_touch (max_y : Nat) (finger_state : Nat)
    (touch_data : List Nat) : Option TouchPoint :=
  if finger_state = 0x01 then
    let d := fun i => touch_data.getD i 0
    let x := (d 0 <<< 4) ||| (d 2 &&& 0x07)
    let y := (d 1 <<< 4) ||| (d 2 >>> 4)
    let wx := d 3 &&& 0x07
    let wy := d 3 >>> 4
    some { x := x
           y := (max_y : Int) - (y : Int)
           wide := decide (wy < wx)
           z := d 4
           major := max wx wy
           minor := min wx wy }
  else none

/-!
## F11 sizing (rmi_populate_f11) and attention layout (rmi_f11_input_event)
-/

/-- DIV_ROUND_UP(n, d) from the kernel: (n + d - 1) / d. -/
def div_round_up (n d : Nat) : Nat := (n + d - 1) / d

/-- max_fingers as computed by rmi_populate_f11 from query byte 1:
low 3 bits plus one, and any value above 5 becomes 10. -/
def rmi_max_fingers (q1 : Nat) : Nat :=
  let m := (q1 &&& 0x07) + 1
  if m > 5 then 10 else m

/-- f11.report_size as set by rmi_populate_f11:
max_fingers * 5 + DIV_ROUND_UP(max_fingers, 4). -/
def rmi_f11_report_size (max_fingers : Nat) : Nat :=
  max_fingers * 5 + div_round_up max_fingers 4

/-- The offset at which rmi_f11_input_event starts reading per-finger
data blocks: (max_fingers >> 2) + 1. -/
def rmi_f11_data_offset (max_fingers : Nat) : Nat :=
  (max_fingers >>> 2) + 1

/-- Extent of the bytes rmi_f11_input_event consumes: the last finger
data block ends at offset + 5 * max_fingers. -/
def rmi_f11_bytes_consumed (max_fingers : Nat) : Nat :=
  rmi_f11_data_offset max_fingers + 5 * max_fingers

/-- The 2-bit finger state rmi_f11_input_event extracts for finger i:
byte i >> 2 of the leading status region, bits (i mod 4) * 2. -/
def rmi_f11_finger_state (data : List Nat) (i : Nat) : Nat :=
  (data.getD (i >>> 2) 0 >>> ((i &&& 0x3) <<< 1)) &&& 0x03

/-- Per-function state rmi_f11_input_event consults. -/
structure F11State where
  report_size : Nat
  irq_mask : Nat
  max_fingers : Nat
  max_y : Nat
  deriving Repr, DecidableEq

/-- The byte indices rmi_f11_input_event reads from the report slice it
is handed: nothing when the slice is shorter than report_size or the
irq bit is not set, otherwise the status byte and the 5 data bytes of
every finger. -/
def rmi_f11_reads (s : F11State) (irq : Nat) (size : Nat) : List Nat :=
  if size < s.report_size then []
  else if irq &&& s.irq_mask = 0 then []
  else
    (List.range s.max_fingers).flatMap fun i =>
      (i >>> 2) ::
        (List.range 5).map fun j => rmi_f11_data_offset s.max_fingers + 5 * i + j

/-- Return value of rmi_f11_input_event: 0 when skipping (short report
or irq bit unset), otherwise f11.report_size. -/
def rmi_f11_event_ret (s : F11State) (irq : Nat) (size : Nat) : Nat :=
  if size < s.report_size then 0
  else if irq &&& s.irq_mask = 0 then 0
  else s.report_size

/-!
## F30 button decoding (rmi_f30_input_event)

The C function has no size check at all: after the irq mask test it
reads data[i / 8] for every gpio position with a button mask bit set,
whatever the remaining report size is.
-/

/-- Per-function state rmi_f30_input_event consults. -/
structure F30State where
  report_size : Nat
  irq_mask : Nat
  gpio_led_count : Nat
  button_mask : Nat
  button_state_mask : Nat
  deriving Repr, DecidableEq

/-- The byte indices rmi_f30_input_event reads from the report slice it
is handed.  The size argument mirrors the C parameter, which the body
never consults. -/
def rmi_f30_reads (s : F30State) (irq : Nat) (size : Nat) : List Nat :=
  if irq &&& s.irq_mask = 0 then []
  else
    (List.range s.gpio_led_count).filterMap fun i =>
      if s.button_mask.testBit i then some (i / 8) else none

/-- Return value of rmi_f30_input_event: 0 only when the irq bit is
unset, otherwise f30.report_size regardless of size. -/
def rmi_f30_event_ret (s : F30State) (irq : Nat) (size : Nat) : Nat :=
  if irq &&& s.irq_mask = 0 then 0 else s.report_size

/-- The button value rmi_f30_input_event emits for gpio position i:
the raw bit, inverted when the pull-state bit of i is set. -/
def rmi_f30_button_value (s : F30State) (data : List Nat) (i : Nat) : Bool :=
  let raw := (data.getD (i / 8) 0 >>> (i &&& 0x07)) &&& 1 = 1
  if s.button_state_mask.testBit i then !raw else raw

/-!
## PDT scanning (rmi_scan_pdt, rmi_register_function)
-/

/-- Scan range constants of hid-rmi.c. -/
def RMI4_MAX_PAGE : Nat := 0xff

def RMI4_PAGE_SIZE : Nat := 0x0100

def PDT_START_SCAN_LOCATION : Nat := 0x00e9

def PDT_END_SCAN_LOCATION : Nat := 0x0005

/-- RMI4_END_OF_PDT: a function number of 0x00 or 0xff ends the table
of a page. -/
def RMI4_END_OF_PDT (id : Nat) : Bool := id == 0x00 || id == 0xff

/-- Number of iterations of the inner descending loop of rmi_scan_pdt:
i runs from page_start + 0xe9 down to page_start + 0x05 in steps of 6,
hence (0xe9 - 0x05) / 6 + 1 = 39 entries per page. -/
def pdt_entries_per_page : Nat :=
  (PDT_START_SCAN_LOCATION - PDT_END_SCAN_LOCATION) / 6 + 1

/-- One decoded PDT entry (struct pdt_entry). -/
structure PdtEntry where
  query_base_addr : Nat
  command_base_addr : Nat
  control_base_addr : Nat
  data_base_addr : Nat
  interrupt_source_count : Nat
  function_version : Nat
  function_number : Nat
  deriving Repr, DecidableEq

/-- One registered RMI function (struct rmi_function). -/
structure RmiFunction where
  page : Nat
  query_base_addr : Nat
  command_base_addr : Nat
  control_base_addr : Nat
  data_base_addr : Nat
  interrupt_base : Nat
  interrupt_count : Nat
  irq_mask : Nat
  deriving Repr, DecidableEq

/-- The zeroed rmi_function that devm_kzalloc leaves in rmi_data. -/
def RmiFunction.zero : RmiFunction := ⟨0, 0, 0, 0, 0, 0, 0, 0⟩

/-- The f11 and f30 slots of rmi_data that the scan fills in. -/
structure ScanState where
  f11 : RmiFunction
  f30 : RmiFunction
  deriving Repr, DecidableEq

/-- rmi_gen_mask: GENMASK(irq_count + irq_base - 1, irq_base). -/
def rmi_gen_mask (irq_base irq_count : Nat) : Nat :=
  ((1 <<< irq_count) - 1) <<< irq_base

/-- rmi_register_function: F11 and F30 entries fill their slot with the
page-based addresses and the interrupt base handed in; every other
function number leaves the state untouched. -/
def rmi_register_function (st : ScanState) (e : PdtEntry) (page : Nat)
    (interrupt_count : Nat) : ScanState :=
  let page_base := page <<< 8
  let f : RmiFunction :=
    { page := page
      query_base_addr := page_base ||| e.query_base_addr
      command_base_addr := page_base ||| e.command_base_addr
      control_base_addr := page_base ||| e.control_base_addr
      data_base_addr := page_base ||| e.data_base_addr
      interrupt_base := interrupt_count
      interrupt_count := e.interrupt_source_count
      irq_mask := rmi_gen_mask interrupt_count e.interrupt_source_count }
  if e.function_number = 0x11 then { st with f11 := f }
  else if e.function_number = 0x30 then { st with f30 := f }
  else st

/-- Result of scanning one page: fail on a read error, otherwise
whether the page had any function, the updated state, the interrupt
allocator value, and the addresses read. -/
inductive PageRes where
  | fail (reads : List Nat)
  | done (hasF : Bool) (st : ScanState) (interrupt : Nat) (reads : List Nat)
  deriving Repr, DecidableEq

/-- The inner loop of rmi_scan_pdt over one page: read the entry at
addr, stop on a read failure or on an end-of-table function number,
otherwise register the entry, advance the interrupt allocator by its
interrupt source count, and step the address down by 6. -/
def rmi_scan_page (dev : Nat → Option PdtEntry) (page : Nat) :
    Nat → Nat → Bool → ScanState → Nat → PageRes
  | _addr, 0, hasF, st, interrupt => .done hasF st interrupt []
  | addr, steps + 1, hasF, st, interrupt =>
      match dev addr with
      | none => .fail [addr]
      | some e =>
          if RMI4_END_OF_PDT e.function_number then .done hasF st interrupt [addr]
          else
            match rmi_scan_page dev page (addr - 6) steps true
                (rmi_register_function st e page interrupt)
                (interrupt + e.interrupt_source_count) with
            | .fail rs => .fail (addr :: rs)
            | .done h s i rs => .done h s i (addr :: rs)

/-- Result of the whole scan: the final state and the addresses read,
or a failure. -/
inductive ScanRes where
  | fail (reads : List Nat)
  | done (st : ScanState) (reads : List Nat)
  deriving Repr, DecidableEq

/-- The outer loop of rmi_scan_pdt: pages from the given one upward
while fuel lasts; a page with no function stops the scan. -/
def rmi_scan_pages (dev : Nat → Option PdtEntry) :
    Nat → Nat → ScanState → Nat → ScanRes
  | _page, 0, st, _interrupt => .done st []
  | page, pagesLeft + 1, st, interrupt =>
      match rmi_scan_page dev page (RMI4_PAGE_SIZE * page + PDT_START_SCAN_LOCATION)
          pdt_entries_per_page false st interrupt with
      | .fail rs => .fail rs
      | .done hasF st2 interrupt2 rs =>
          if hasF then
            match rmi_scan_pages dev (page + 1) pagesLeft st2 interrupt2 with
            | .fail rs2 => .fail (rs ++ rs2)
            | .done st3 rs2 => .done st3 (rs ++ rs2)
          else .done st2 rs

/-- rmi_scan_pdt: scan from page 0 with at most 256 pages, starting
from the zeroed function slots and interrupt allocator 0. -/
def rmi_scan_pdt (dev : Nat → Option PdtEntry) : ScanRes :=
  rmi_scan_pages dev 0 (RMI4_MAX_PAGE + 1) ⟨RmiFunction.zero, RmiFunction.zero⟩ 0

/-- The addresses a page scan read. -/
def PageRes.reads : PageRes → List Nat
  | .fail rs => rs
  | .done _ _ _ rs => rs

/-- The addresses the whole scan read. -/
def ScanRes.reads : ScanRes → List Nat
  | .fail rs => rs
  | .done _ rs => rs

/-- A concrete device table: the page 0 PDT holds an unrecognized
function 0x42 with interrupt source count 2, then F11 with interrupt
source count 4, then an end-of-table entry; every other address reads
as an end-of-table entry, so page 1 is empty. -/
def pdtFixture : Nat → Option PdtEntry := fun addr =>
  if addr = 0xe9 then some ⟨0x01, 0x02, 0x03, 0x04, 2, 0, 0x42⟩
  else if addr = 0xe3 then some ⟨0x10, 0x20, 0x30, 0x40, 4, 0, 0x11⟩
  else some ⟨0, 0, 0, 0, 0, 0, 0⟩

/-!
## Raw report dispatch (rmi_raw_event) and mode recovery
-/

/-- What rmi_raw_event does with an inbound report, keyed on byte 0:
route to the read-data completion path, route to attention decoding,
schedule the reset work, or nothing. -/
inductive RawAction where
  | readData
  | attention
  | scheduleReset
  | ignore
  deriving Repr, DecidableEq

/-- rmi_raw_event dispatch: read-data and attention reports are routed
by id; a mouse report schedules the reset work only when its second
byte is zero. -/
def rmi_raw_event_action (data : List Nat) : RawAction :=
  if data.getD 0 0 = RMI_READ_DATA_REPORT_ID then .readData
  else if data.getD 0 0 = RMI_ATTN_REPORT_ID then .attention
  else if data.getD 0 0 = RMI_MOUSE_REPORT_ID then
    if data.getD 1 0 = 0 then .scheduleReset else .ignore
  else .ignore

/-- The feature report rmi_set_mode sends for a given mode. -/
def rmi_set_mode_txbuf (mode : Nat) : List Nat :=
  [RMI_SET_RMI_MODE_REPORT_ID, mode]

/-- The feature report the scheduled rmi_reset_work sends: set-mode
back to attention reports. -/
def rmi_reset_work_txbuf : List Nat := rmi_set_mode_txbuf RMI_MODE_ATTN_REPORTS

/-!
## Page select (rmi_set_page)
-/

/-- The slice of rmi_data that rmi_set_page touches: the recorded
current page and the write scratch buffer. -/
structure DevState where
  page : Nat
  writeReport : List Nat
  deriving Repr, DecidableEq

/-- rmi_set_page: build the write report (bytes 0, 1, 2 and 4 are set,
byte 3 keeps its previous content), send it, and record the new page
only when the send result equals the full output report size; any
other result is returned as is with the page unchanged. -/
def rmi_set_page (st : DevState) (output_report_size : Nat) (newPage : Nat)
    (sendResult : Int) : DevState × Int :=
  let w := (((st.writeReport.set 0 RMI_WRITE_REPORT_ID).set 1 1).set 2 0xff).set 4 newPage
  if sendResult ≠ (output_report_size : Int) then
    ({ st with writeReport := w }, sendResult)
  else
    ({ st with writeReport := w, page := newPage }, 0)

/-!
## Helper lemmas about the read protocol
-/

/-- Once bytes_read has reached len, the accumulation loop stops and
returns the buffer, whatever events are still pending. -/
theorem readLoop_of_not_lt (len bytesRead : Nat) (acc : List Nat)
    (events : List (Option Chunk)) (h : ¬ bytesRead < len) :
    readLoop len bytesRead acc events = .done acc events := by
  cases events <;> simp [readLoop, h]

/-- The retry loop sends at most one request per remaining attempt. -/
theorem readAttempts_writes_le (len : Nat) :
    ∀ (retries : Nat) (events : List (Option Chunk)) (w : Nat),
      (readAttempts len retries events w).writes ≤ w + retries := by
  intro retries
  induction retries with
  | zero => intro events w; simp [readAttempts]
  | succ r ih =>
      intro events w
      unfold readAttempts
      cases hl : readLoop len 0 [] events with
      | done buf rest => simp
      | timedOut buf rest =>
          simp only
          have := ih rest (w + 1)
          omega
      | starved buf => simp

/-- A wait that times out ends the attempt and moves to the next one,
with one more request written. -/
theorem readAttempts_timeout_step (len : Nat) (hlen : 0 < len) (r w : Nat)
    (rest : List (Option Chunk)) :
    readAttempts len (r + 1) (none :: rest) w = readAttempts len r rest (w + 1) := by
  simp [readAttempts, readLoop, hlen]

/-- An attempt whose first delivery already carries at least len bytes
succeeds at once with the first len payload bytes. -/
theorem readAttempts_chunk_done (len : Nat) (hlen : 0 < len) (r w : Nat)
    (c : Chunk) (hc : len ≤ c.count) (rest : List (Option Chunk)) :
    readAttempts len (r + 1) (some c :: rest) w
      = ⟨.ok (c.payload.take len), w + 1, rest⟩ := by
  have hmin : min c.count (len - 0) = len := by omega
  have hdone : readLoop len (0 + c.count) ([] ++ c.payload.take (min c.count (len - 0))) rest
      = .done (c.payload.take len) rest := by
    rw [readLoop_of_not_lt len (0 + c.count) _ rest (by omega)]
    rw [hmin]
    simp
  simp only [readAttempts]
  rw [show readLoop len 0 [] (some c :: rest)
      = readLoop len (0 + c.count) ([] ++ c.payload.take (min c.count (len - 0))) rest
    from by simp [readLoop, hlen]]
  rw [hdone]

/-- If every wait of every attempt times out, the retry loop exhausts
its budget and fails with -EAGAIN, one request per attempt. -/
theorem readAttempts_all_timeouts (len : Nat) (hlen : 0 < len) :
    ∀ (retries w : Nat) (rest : List (Option Chunk)),
      readAttempts len retries (List.replicate retries none ++ rest) w
        = ⟨.eagain, w + retries, rest⟩ := by
  intro retries
  induction retries with
  | zero => intro w rest; simp [readAttempts]
  | succ r ih =>
      intro w rest
      rw [List.replicate_succ, List.cons_append,
        readAttempts_timeout_step len hlen r w _, ih (w + 1) rest]
      rw [show w + 1 + r = w + (r + 1) from by omega]

/-- k timeouts followed by a delivery of at least len bytes: attempt
k + 1 succeeds, with k + 1 requests written in total. -/
theorem readAttempts_timeouts_then_chunk (len : Nat) (hlen : 0 < len)
    (c : Chunk) (hc : len ≤ c.count) :
    ∀ (k r w : Nat), k ≤ r →
      ∀ rest, readAttempts len (r + 1) (List.replicate k none ++ some c :: rest) w
        = ⟨.ok (c.payload.take len), w + (k + 1), rest⟩ := by
  intro k
  induction k with
  | zero =>
      intro r w _ rest
      simpa using readAttempts_chunk_done len hlen r w c hc rest
  | succ k ih =>
      intro r w hkr rest
      obtain ⟨r2, rfl⟩ : ∃ r2, r = r2 + 1 := ⟨r - 1, by omega⟩
      rw [List.replicate_succ, List.cons_append,
        readAttempts_timeout_step len hlen _ w _, ih r2 (w + 1) (by omega) rest]
      rw [show w + 1 + (k + 1) = w + (k + 1 + 1) from by omega]

/-- The accumulation loop over deliveries whose counts sum exactly to
len: every chunk is consumed whole, in order, and the events after the
last needed delivery are left untouched. -/
theorem readLoop_exact (len : Nat) :
    ∀ (cs : List Chunk) (bytesRead : Nat) (acc : List Nat)
      (rest : List (Option Chunk)),
      bytesRead + (cs.map Chunk.count).sum = len →
      (∀ i < cs.length, bytesRead + ((cs.take i).map Chunk.count).sum < len) →
      readLoop len bytesRead acc (cs.map some ++ rest)
        = .done (acc ++ (cs.map fun c => c.payload.take c.count).flatten) rest := by
  intro cs
  induction cs with
  | nil =>
      intro bytesRead acc rest hsum _
      simp only [List.map_nil, List.sum_nil, Nat.add_zero] at hsum
      simp [readLoop_of_not_lt len bytesRead acc rest (by omega)]
  | cons c cs ih =>
      intro bytesRead acc rest hsum hpre
      have h0 : bytesRead < len := by
        have := hpre 0 (by simp)
        simpa using this
      have hcount : c.count ≤ len - bytesRead := by
        simp only [List.map_cons, List.sum_cons] at hsum
        omega
      have hmin : min c.count (len - bytesRead) = c.count := Nat.min_eq_left hcount
      have hstep : readLoop len bytesRead acc ((c :: cs).map some ++ rest)
          = readLoop len (bytesRead + c.count) (acc ++ c.payload.take c.count)
              (cs.map some ++ rest) := by
        simp [readLoop, h0, hmin]
      rw [hstep, ih (bytesRead + c.count) (acc ++ c.payload.take c.count) rest
        (by simp only [List.map_cons, List.sum_cons] at hsum; omega)
        (by
          intro i hi
          have := hpre (i + 1) (by simpa using Nat.succ_lt_succ hi)
          simpa [Nat.add_assoc] using this)]
      simp

/-!
## Claim theorems
-/

/-- Claim C1: rmi_read_block makes at most 5 attempts, each sending one
read-request report; a timed-out wait fails the attempt with -EAGAIN
and the next attempt is made; after 5 attempts that all time out the
operation fails with the timeout error having written exactly 5
requests; an attempt whose delivery covers the requested length
(here after k timed-out attempts, k up to 4, so including the 5th)
returns success. -/
theorem C1_read_block_retry_budget (len k : Nat) (c : Chunk)
    (events rest : List (Option Chunk))
    (hlen : 0 < len) (hk : k ≤ 4) (hc : len ≤ c.count) :
    (rmi_read_block len events).writes ≤ 5 ∧
    rmi_read_block len (List.replicate k none ++ some c :: rest)
      = ⟨.ok (c.payload.take len), k + 1, rest⟩ ∧
    rmi_read_block len (List.replicate 5 none ++ rest) = ⟨.eagain, 5, rest⟩ := by
  refine ⟨?_, ?_, ?_⟩
  · simpa using readAttempts_writes_le len 5 events 0
  · have h := readAttempts_timeouts_then_chunk len hlen c hc k 4 0 hk rest
    simpa [rmi_read_block] using h
  · have h := readAttempts_all_timeouts len hlen 5 0 rest
    simpa [rmi_read_block] using h

/-- Witness for C1: len 4, four timeouts then a 6-byte delivery. -/
theorem C1_read_block_retry_budget_witness :
    (rmi_read_block 4 []).writes ≤ 5 ∧
    rmi_read_block 4 (List.replicate 4 none ++ some ⟨6, [1, 2, 3, 4, 5, 6]⟩ :: [])
      = ⟨.ok [1, 2, 3, 4], 5, []⟩ ∧
    rmi_read_block 4 (List.replicate 5 none ++ []) = ⟨.eagain, 5, []⟩ := by
  have h := C1_read_block_retry_budget 4 4 ⟨6, [1, 2, 3, 4, 5, 6]⟩ [] []
    (by decide) (by decide) (by decide)
  exact ⟨h.1, h.2.1, h.2.2⟩

/-- Claim C2: when the delivered chunks cover the requested length
exactly (every proper prefix still short of len), the returned buffer
is the concatenation in delivery order of each chunk contributing the
byte count stated in its own read_input_count field, its length is len,
a single request was written, and the deliveries after the last needed
one are not awaited (they are returned unconsumed). -/
theorem C2_read_accumulation (len : Nat) (cs : List Chunk)
    (rest : List (Option Chunk))
    (hwf : ∀ c ∈ cs, c.count ≤ c.payload.length)
    (hsum : (cs.map Chunk.count).sum = len)
    (hpre : ∀ i < cs.length, ((cs.take i).map Chunk.count).sum < len) :
    rmi_read_block len (cs.map some ++ rest)
      = ⟨.ok ((cs.map fun c => c.payload.take c.count).flatten), 1, rest⟩ ∧
    ((cs.map fun c => c.payload.take c.count).flatten).length = len := by
  constructor
  · have h := readLoop_exact len cs 0 [] rest (by simpa using hsum)
      (by intro i hi; simpa using hpre i hi)
    simp only [List.nil_append] at h
    simp [rmi_read_block, readAttempts, h]
  · have hmap : (cs.map fun c => c.payload.take c.count).map List.length
        = cs.map Chunk.count := by
      rw [List.map_map]
      refine List.map_congr_left ?_
      intro c hc
      simp [List.length_take, Nat.min_eq_left (hwf c hc)]
    rw [List.length_flatten, hmap, hsum]

/-- Witness for C2: len 10, deliveries of 6 then 4 bytes with a third
pending event left unconsumed. -/
theorem C2_read_accumulation_witness :
    rmi_read_block 10
        [some ⟨6, [1, 2, 3, 4, 5, 6]⟩, some ⟨4, [7, 8, 9, 10]⟩, none]
      = ⟨.ok [1, 2, 3, 4, 5, 6, 7, 8, 9, 10], 1, [none]⟩ ∧
    ([1, 2, 3, 4, 5, 6, 7, 8, 9, 10] : List Nat).length = 10 := by
  have h := C2_read_accumulation 10
    [⟨6, [1, 2, 3, 4, 5, 6]⟩, ⟨4, [7, 8, 9, 10]⟩] [none]
    (by decide) (by decide) (by decide)
  exact ⟨h.1, h.2⟩

/-- Oring a 4-bit-shifted high part with a value below 16 is plain
positional addition. -/
theorem shiftLeft4_lor_eq_add (a b : Nat) (hb : b < 16) :
    (a <<< 4) ||| b = 16 * a + b := by
  have h := Nat.mul_add_lt_is_or (i := 4) (b := b) (by simpa using hb) a
  rw [Nat.shiftLeft_eq, Nat.mul_comm a (2 ^ 4), ← h]

/-- Masking with 0x07 keeps only the low 3 bits. -/
theorem land7_eq_mod8 (d : Nat) : d &&& 0x07 = d % 8 := by
  simpa using Nat.and_pow_two_sub_one_eq_mod d 3

/-- Shifting right by 4 is division by 16. -/
theorem shiftRight4_eq_div16 (d : Nat) : d >>> 4 = d / 16 := by
  simpa using Nat.shiftRight_eq_div_pow d 4

/-- Counterexample to claim C3: with touch bytes [0, 0, 8, 8, 0] the
full low nibble of byte 2 is 8, so the claimed layout gives X = 8 and
the claimed 4-bit horizontal width sub-reading is 8; the code masks
both with 0x07 and yields X = 0 and widths 0. -/
theorem C3_touch_layout_counterexample :
    rmi_f11_process_touch 4095 1 [0, 0, 8, 8, 0]
      = some ⟨0, 4095, false, 0, 0, 0⟩ ∧
    ((0 : Nat) <<< 4) ||| ((8 : Nat) &&& 0x0f) = 8 ∧
    (rmi_f11_process_touch 4095 1 [0, 0, 8, 8, 0]).map TouchPoint.x ≠ some 8 := by
  refine ⟨by decide, by decide, by decide⟩

/-- Claim C3 (amended): for a live finger (state 1) the decoder takes
X as byte 0 shifted up 4 orred with only the LOW 3 BITS of byte 2
(mask 0x07, not the full nibble), Y as byte 1 shifted up 4 orred with
the full high nibble of byte 2, the horizontal width sub-reading as the
low 3 bits of byte 3 and the vertical one as its high nibble, and the
pressure as byte 4; Y is then inverted against max_y. -/
theorem C3_touch_unpack_amended (max_y d0 d1 d2 d3 d4 : Nat) (h2 : d2 < 256) :
    rmi_f11_process_touch max_y 1 [d0, d1, d2, d3, d4]
      = some { x := 16 * d0 + d2 % 8
               y := (max_y : Int) - ((16 * d1 + d2 / 16 : Nat) : Int)
               wide := decide (d3 / 16 < d3 % 8)
               z := d4
               major := max (d3 % 8) (d3 / 16)
               minor := min (d3 % 8) (d3 / 16) } := by
  have hx2 : (d0 <<< 4) ||| (d2 % 8) = 16 * d0 + d2 % 8 :=
    shiftLeft4_lor_eq_add d0 (d2 % 8) (by omega)
  have hy2 : (d1 <<< 4) ||| (d2 / 16) = 16 * d1 + d2 / 16 :=
    shiftLeft4_lor_eq_add d1 (d2 / 16) (by omega)
  have g0 : [d0, d1, d2, d3, d4].getD 0 0 = d0 := rfl
  have g1 : [d0, d1, d2, d3, d4].getD 1 0 = d1 := rfl
  have g2 : [d0, d1, d2, d3, d4].getD 2 0 = d2 := rfl
  have g3 : [d0, d1, d2, d3, d4].getD 3 0 = d3 := rfl
  have g4 : [d0, d1, d2, d3, d4].getD 4 0 = d4 := rfl
  unfold rmi_f11_process_touch
  rw [if_pos rfl]
  simp only [g0, g1, g2, g3, g4, land7_eq_mod8, shiftRight4_eq_div16, hx2, hy2]

/-- Witness for C3 (amended): bytes [1, 2, 171, 92, 77], max_y 1000. -/
theorem C3_touch_unpack_amended_witness :
    rmi_f11_process_touch 1000 1 [1, 2, 171, 92, 77]
      = some { x := 19, y := (958 : Int), wide := false, z := 77
               major := 5, minor := 4 } := by
  have h := C3_touch_unpack_amended 1000 1 2 171 92 77 (by omega)
  simpa using h

set_option maxRecDepth 4000 in
/-- Claim C4 (code inconsistency at max_fingers = 4): the decoder
starts finger data at (max_fingers >> 2) + 1.  That equals the rounded
up status-region size ceil(max_fingers / 4) for the reachable values
1, 2, 3, 5 and 10, making the consumed bytes equal the declared report
size there; but max_fingers = 4 is reachable (query raw value 3), where
the offset is 2 while the status region is 1 byte, so the decoder
consumes 22 bytes against a declared report size of 21. -/
theorem C4_f11_offset_vs_report_size :
    rmi_max_fingers 3 = 4 ∧
    (rmi_f11_data_offset 4 = 2 ∧ div_round_up 4 4 = 1 ∧
      rmi_f11_bytes_consumed 4 = 22 ∧ rmi_f11_report_size 4 = 21) ∧
    (rmi_f11_data_offset 1 = div_round_up 1 4 ∧
      rmi_f11_data_offset 2 = div_round_up 2 4 ∧
      rmi_f11_data_offset 3 = div_round_up 3 4 ∧
      rmi_f11_data_offset 5 = div_round_up 5 4 ∧
      rmi_f11_data_offset 10 = div_round_up 10 4) ∧
    (rmi_f11_bytes_consumed 1 = rmi_f11_report_size 1 ∧
      rmi_f11_bytes_consumed 2 = rmi_f11_report_size 2 ∧
      rmi_f11_bytes_consumed 3 = rmi_f11_report_size 3 ∧
      rmi_f11_bytes_consumed 5 = rmi_f11_report_size 5 ∧
      rmi_f11_bytes_consumed 10 = rmi_f11_report_size 10) ∧
    ∀ q1 < 256, rmi_max_fingers q1 ∈ ([1, 2, 3, 4, 5, 10] : List Nat) := by
  refine ⟨by decide, by decide, by decide, by decide, by decide⟩

/-- Witness for C4: project the bounded reachability conjunct at the
query byte 3 (whose low bits encode 4 fingers). -/
theorem C4_f11_offset_vs_report_size_witness :
    rmi_max_fingers 3 ∈ ([1, 2, 3, 4, 5, 10] : List Nat) :=
  C4_f11_offset_vs_report_size.2.2.2.2 3 (by decide)

/-- Claim C5 (F30 lacks the guard): the F11 decoder skips a report
slice shorter than its report size, reading nothing and returning 0;
the F30 decoder has no size check: with one configured button and its
irq bit set it reads byte index 0 and returns its report size even for
a 0-byte slice. -/
theorem C5_short_report_handling :
    (∀ (s : F11State) (irq size : Nat), size < s.report_size →
      rmi_f11_reads s irq size = [] ∧ rmi_f11_event_ret s irq size = 0) ∧
    (rmi_f30_reads ⟨1, 1, 1, 1, 0⟩ 1 0 = [0] ∧
      rmi_f30_event_ret ⟨1, 1, 1, 1, 0⟩ 1 0 = 1) := by
  constructor
  · intro s irq size h
    constructor <;> simp [rmi_f11_reads, rmi_f11_event_ret, h]
  · constructor <;> decide

/-- Witness for C5: a 20-byte slice against an F11 report size of 21 is
skipped; the F30 half is closed already. -/
theorem C5_short_report_handling_witness :
    (rmi_f11_reads ⟨21, 1, 4, 100⟩ 1 20 = [] ∧
      rmi_f11_event_ret ⟨21, 1, 4, 100⟩ 1 20 = 0) ∧
    (rmi_f30_reads ⟨1, 1, 1, 1, 0⟩ 1 0 = [0] ∧
      rmi_f30_event_ret ⟨1, 1, 1, 1, 0⟩ 1 0 = 1) :=
  ⟨C5_short_report_handling.1 ⟨21, 1, 4, 100⟩ 1 20 (by decide),
    C5_short_report_handling.2⟩

/-- Every address the one-page loop reads steps down by a multiple of
the 6-byte entry size from the starting address. -/
theorem rmi_scan_page_reads_descend (dev : Nat → Option PdtEntry) (page : Nat) :
    ∀ (steps addr interrupt : Nat) (hasF : Bool) (st : ScanState),
      ∀ a ∈ (rmi_scan_page dev page addr steps hasF st interrupt).reads,
        ∃ j < steps, a = addr - 6 * j := by
  intro steps
  induction steps with
  | zero =>
      intro addr interrupt hasF st a ha
      simp [rmi_scan_page, PageRes.reads] at ha
  | succ steps ih =>
      intro addr interrupt hasF st a ha
      simp only [rmi_scan_page] at ha
      cases hdev : dev addr with
      | none =>
          rw [hdev] at ha
          simp [PageRes.reads] at ha
          exact ⟨0, by omega, by omega⟩
      | some e =>
          rw [hdev] at ha
          by_cases hend : RMI4_END_OF_PDT e.function_number = true
          · simp only [hend, if_true, PageRes.reads, List.mem_singleton] at ha
            exact ⟨0, by omega, by omega⟩
          · simp only [hend, if_false, Bool.false_eq_true] at ha
            cases hrec : rmi_scan_page dev page (addr - 6) steps true
                (rmi_register_function st e page interrupt)
                (interrupt + e.interrupt_source_count) with
            | fail rs =>
                rw [hrec] at ha
                simp only [PageRes.reads, List.mem_cons] at ha
                rcases ha with rfl | hmem
                · exact ⟨0, by omega, by omega⟩
                · obtain ⟨j, hj, rfl⟩ := ih (addr - 6)
                    (interrupt + e.interrupt_source_count) true
                    (rmi_register_function st e page interrupt) a
                    (by rw [hrec]; exact hmem)
                  exact ⟨j + 1, by omega, by omega⟩
            | done h2 s2 i2 rs =>
                rw [hrec] at ha
                simp only [PageRes.reads, List.mem_cons] at ha
                rcases ha with rfl | hmem
                · exact ⟨0, by omega, by omega⟩
                · obtain ⟨j, hj, rfl⟩ := ih (addr - 6)
                    (interrupt + e.interrupt_source_count) true
                    (rmi_register_function st e page interrupt) a
                    (by rw [hrec]; exact hmem)
                  exact ⟨j + 1, by omega, by omega⟩

/-- Every address the page loop reads belongs to the PDT window of a
page between the starting page and the page budget. -/
theorem rmi_scan_pages_reads_range (dev : Nat → Option PdtEntry) :
    ∀ (n page interrupt : Nat) (st : ScanState),
      ∀ a ∈ (rmi_scan_pages dev page n st interrupt).reads,
        ∃ p, page ≤ p ∧ p < page + n ∧ ∃ j < pdt_entries_per_page,
          a = RMI4_PAGE_SIZE * p + PDT_START_SCAN_LOCATION - 6 * j := by
  intro n
  induction n with
  | zero =>
      intro page interrupt st a ha
      simp [rmi_scan_pages, ScanRes.reads] at ha
  | succ n ih =>
      intro page interrupt st a ha
      simp only [rmi_scan_pages] at ha
      cases hpage : rmi_scan_page dev page
          (RMI4_PAGE_SIZE * page + PDT_START_SCAN_LOCATION)
          pdt_entries_per_page false st interrupt with
      | fail rs =>
          rw [hpage] at ha
          simp only [ScanRes.reads] at ha
          obtain ⟨j, hj, rfl⟩ := rmi_scan_page_reads_descend dev page
            pdt_entries_per_page _ interrupt false st a (by rw [hpage]; exact ha)
          exact ⟨page, Nat.le_refl _, by omega, j, hj, rfl⟩
      | done hasF st2 i2 rs =>
          rw [hpage] at ha
          by_cases hF : hasF = true
          · simp only [hF, if_true] at ha
            cases hrec : rmi_scan_pages dev (page + 1) n st2 i2 with
            | fail rs2 =>
                rw [hrec] at ha
                simp only [ScanRes.reads, List.mem_append] at ha
                rcases ha with hmem | hmem
                · obtain ⟨j, hj, rfl⟩ := rmi_scan_page_reads_descend dev page
                    pdt_entries_per_page _ interrupt false st a
                    (by rw [hpage]; exact hmem)
                  exact ⟨page, Nat.le_refl _, by omega, j, hj, rfl⟩
                · obtain ⟨p, hp1, hp2, hj⟩ := ih (page + 1) i2 st2 a
                    (by rw [hrec]; exact hmem)
                  exact ⟨p, by omega, by omega, hj⟩
            | done st3 rs2 =>
                rw [hrec] at ha
                simp only [ScanRes.reads, List.mem_append] at ha
                rcases ha with hmem | hmem
                · obtain ⟨j, hj, rfl⟩ := rmi_scan_page_reads_descend dev page
                    pdt_entries_per_page _ interrupt false st a
                    (by rw [hpage]; exact hmem)
                  exact ⟨page, Nat.le_refl _, by omega, j, hj, rfl⟩
                · obtain ⟨p, hp1, hp2, hj⟩ := ih (page + 1) i2 st2 a
                    (by rw [hrec]; exact hmem)
                  exact ⟨p, by omega, by omega, hj⟩
          · simp only [hF, if_false, Bool.false_eq_true, ScanRes.reads] at ha
            obtain ⟨j, hj, rfl⟩ := rmi_scan_page_reads_descend dev page
              pdt_entries_per_page _ interrupt false st a (by rw [hpage]; exact ha)
            exact ⟨page, Nat.le_refl _, by omega, j, hj, rfl⟩

/-- Claim C6: an entry whose function number is an end-of-table
sentinel stops the page loop at once with state and allocator
unchanged; a page that yielded no function makes the outer loop return
without touching any further page; and every address the whole scan
reads lies in the descending PDT window of a page between 0 and the
maximum page. -/
theorem C6_pdt_scan_termination (dev : Nat → Option PdtEntry)
    (page addr steps interrupt interrupt2 k : Nat) (hasF : Bool)
    (st st2 : ScanState) (e : PdtEntry) (rs : List Nat)
    (he : dev addr = some e)
    (hend : RMI4_END_OF_PDT e.function_number = true)
    (hempty : rmi_scan_page dev page
        (RMI4_PAGE_SIZE * page + PDT_START_SCAN_LOCATION)
        pdt_entries_per_page false st interrupt = .done false st2 interrupt2 rs) :
    rmi_scan_page dev page addr (steps + 1) hasF st interrupt
      = .done hasF st interrupt [addr] ∧
    rmi_scan_pages dev page (k + 1) st interrupt = .done st2 rs ∧
    ∀ a ∈ (rmi_scan_pdt dev).reads, ∃ p ≤ RMI4_MAX_PAGE,
      ∃ j < pdt_entries_per_page,
        a = RMI4_PAGE_SIZE * p + PDT_START_SCAN_LOCATION - 6 * j := by
  refine ⟨?_, ?_, ?_⟩
  · simp [rmi_scan_page, he, hend]
  · simp [rmi_scan_pages, hempty]
  · intro a ha
    obtain ⟨p, hp1, hp2, hj⟩ := rmi_scan_pages_reads_range dev
      (RMI4_MAX_PAGE + 1) 0 0 ⟨RmiFunction.zero, RmiFunction.zero⟩ a ha
    exact ⟨p, by omega, hj⟩

/-- Witness for C6: a device whose every PDT entry is the 0x00
sentinel stops after one read of page 0. -/
theorem C6_pdt_scan_termination_witness :
    rmi_scan_page (fun _ => some ⟨0, 0, 0, 0, 0, 0, 0⟩) 0 0xe9 39 false
        ⟨RmiFunction.zero, RmiFunction.zero⟩ 0
      = .done false ⟨RmiFunction.zero, RmiFunction.zero⟩ 0 [0xe9] ∧
    rmi_scan_pages (fun _ => some ⟨0, 0, 0, 0, 0, 0, 0⟩) 0 256
        ⟨RmiFunction.zero, RmiFunction.zero⟩ 0
      = .done ⟨RmiFunction.zero, RmiFunction.zero⟩ [0xe9] ∧
    ∃ p ≤ RMI4_MAX_PAGE, ∃ j < pdt_entries_per_page,
      0xe9 = RMI4_PAGE_SIZE * p + PDT_START_SCAN_LOCATION - 6 * j := by
  have h := C6_pdt_scan_termination (fun _ => some ⟨0, 0, 0, 0, 0, 0, 0⟩)
    0 0xe9 38 0 0 255 false ⟨RmiFunction.zero, RmiFunction.zero⟩
    ⟨RmiFunction.zero, RmiFunction.zero⟩ ⟨0, 0, 0, 0, 0, 0, 0⟩ [0xe9]
    rfl (by decide) (by decide)
  exact ⟨h.1, h.2.1, h.2.2 0xe9 (by decide)⟩

/-- Claim C7: an entry whose function number is neither 0x11 nor 0x30
leaves the function slots untouched, yet the scan advances the shared
interrupt allocator by its interrupt source count: on the fixture
device, whose page 0 table is an unrecognized function 0x42 with two
interrupt sources followed by F11 with four, F11 gets interrupt base 2
(not 0), interrupt count 4 and irq mask 0b111100. -/
theorem C7_interrupt_allocation :
    (∀ (st : ScanState) (e : PdtEntry) (page interrupt : Nat),
      e.function_number ≠ 0x11 → e.function_number ≠ 0x30 →
      rmi_register_function st e page interrupt = st) ∧
    rmi_scan_pdt pdtFixture
      = .done ⟨⟨0, 0x10, 0x20, 0x30, 0x40, 2, 4, 60⟩, RmiFunction.zero⟩
          [0xe9, 0xe3, 0xdd, 0x1e9] := by
  constructor
  · intro st e page interrupt h11 h30
    simp [rmi_register_function, h11, h30]
  · decide

/-- Witness for C7: registering the unrecognized 0x42 entry leaves the
state unchanged, and the fixture scan gives F11 interrupt base 2. -/
theorem C7_interrupt_allocation_witness :
    rmi_register_function ⟨RmiFunction.zero, RmiFunction.zero⟩
        ⟨0x01, 0x02, 0x03, 0x04, 2, 0, 0x42⟩ 0 0
      = ⟨RmiFunction.zero, RmiFunction.zero⟩ ∧
    rmi_scan_pdt pdtFixture
      = .done ⟨⟨0, 0x10, 0x20, 0x30, 0x40, 2, 4, 60⟩, RmiFunction.zero⟩
          [0xe9, 0xe3, 0xdd, 0x1e9] :=
  ⟨C7_interrupt_allocation.1 ⟨RmiFunction.zero, RmiFunction.zero⟩
      ⟨0x01, 0x02, 0x03, 0x04, 2, 0, 0x42⟩ 0 0 (by decide) (by decide),
    C7_interrupt_allocation.2⟩

/-- Claim C8: max_fingers is the low 3 bits of query byte 1 plus one,
with every value above 5 normalized to exactly 10; raw 6 gives 10, raw
2 gives 3, and no query byte can produce more than 10. -/
theorem C8_max_fingers_normalization :
    (∀ q1 : Nat, rmi_max_fingers q1
        = if 5 < q1 % 8 + 1 then 10 else q1 % 8 + 1) ∧
    rmi_max_fingers 6 = 10 ∧ rmi_max_fingers 2 = 3 ∧
    ∀ q1 : Nat, rmi_max_fingers q1 ≤ 10 := by
  have hform : ∀ q1 : Nat, rmi_max_fingers q1
      = if 5 < q1 % 8 + 1 then 10 else q1 % 8 + 1 := by
    intro q1
    simp [rmi_max_fingers, land7_eq_mod8]
  refine ⟨hform, by decide, by decide, ?_⟩
  intro q1
  rw [hform q1]
  split <;> omega

/-- Counterexample to claim C9: a mouse-id report whose second byte is
nonzero does not schedule the reset work. -/
theorem C9_mouse_report_counterexample :
    rmi_raw_event_action [0x01, 0x01] = .ignore ∧
    rmi_raw_event_action [0x01, 0x01] ≠ .scheduleReset := by
  constructor <;> decide

/-- Claim C9 (amended): a mouse-id report schedules the asynchronous
reset work exactly when its second byte is zero (nonzero second bytes
are ignored), and the scheduled work re-issues the set-mode feature
report selecting attention-reports mode. -/
theorem C9_mouse_report_reset_amended (rest : List Nat) (b : Nat)
    (hb : b ≠ 0) :
    rmi_raw_event_action (RMI_MOUSE_REPORT_ID :: 0 :: rest) = .scheduleReset ∧
    rmi_raw_event_action (RMI_MOUSE_REPORT_ID :: b :: rest) = .ignore ∧
    rmi_reset_work_txbuf = [RMI_SET_RMI_MODE_REPORT_ID, RMI_MODE_ATTN_REPORTS] := by
  refine ⟨?_, ?_, rfl⟩
  · simp [rmi_raw_event_action, RMI_MOUSE_REPORT_ID, RMI_READ_DATA_REPORT_ID,
      RMI_ATTN_REPORT_ID]
  · simp [rmi_raw_event_action, RMI_MOUSE_REPORT_ID, RMI_READ_DATA_REPORT_ID,
      RMI_ATTN_REPORT_ID, hb]

/-- Witness for C9 (amended): second byte 5 is ignored, second byte 0
schedules the reset. -/
theorem C9_mouse_report_reset_amended_witness :
    rmi_raw_event_action (RMI_MOUSE_REPORT_ID :: 0 :: []) = .scheduleReset ∧
    rmi_raw_event_action (RMI_MOUSE_REPORT_ID :: 5 :: []) = .ignore ∧
    rmi_reset_work_txbuf = [RMI_SET_RMI_MODE_REPORT_ID, RMI_MODE_ATTN_REPORTS] :=
  C9_mouse_report_reset_amended [] 5 (by decide)

/-- Claim C10: rmi_set_page records the new page only when the report
write result equals the full output report size (returning 0); any
other result leaves the recorded page unchanged and is propagated. -/
theorem C10_set_page_atomic (st : DevState) (osz newPage : Nat) (r : Int) :
    (r ≠ (osz : Int) →
      (rmi_set_page st osz newPage r).1.page = st.page ∧
      (rmi_set_page st osz newPage r).2 = r) ∧
    (r = (osz : Int) →
      (rmi_set_page st osz newPage r).1.page = newPage ∧
      (rmi_set_page st osz newPage r).2 = 0) := by
  constructor <;> intro h <;> simp [rmi_set_page, h]

/-- Witness for C10: a failed send (-1) against report size 6 leaves
page 0 in place; a full send of 6 bytes moves to page 2. -/
theorem C10_set_page_atomic_witness :
    ((rmi_set_page ⟨0, [0, 0, 0, 0, 0, 0]⟩ 6 2 (-1)).1.page = 0 ∧
      (rmi_set_page ⟨0, [0, 0, 0, 0, 0, 0]⟩ 6 2 (-1)).2 = -1) ∧
    ((rmi_set_page ⟨0, [0, 0, 0, 0, 0, 0]⟩ 6 2 6).1.page = 2 ∧
      (rmi_set_page ⟨0, [0, 0, 0, 0, 0, 0]⟩ 6 2 6).2 = 0) :=
  ⟨(C10_set_page_atomic ⟨0, [0, 0, 0, 0, 0, 0]⟩ 6 2 (-1)).1 (by decide),
    (C10_set_page_atomic ⟨0, [0, 0, 0, 0, 0, 0]⟩ 6 2 6).2 (by decide)⟩

end HidRmi
